import Mathlib

/-!
Shallow embedding of `src/variant_qc/exomes_genomes_coverage.py`.

The pipeline has three stages:
* `import_cds_from_gtf` — gene-model builder: filter a GTF to basic
  protein-coding CDS records, explode each interval into one row per base,
  key by (locus, gene_id) and deduplicate;
* `compute_per_base_cds_coverage` — per-locus haploid-adjusted coverage
  aggregation (`get_haploid_coverage_struct`) and the left join of the gene
  model against the coverage aggregates and the mappability track;
* `export_gene_coverage` — Y-contig exclusion, group-by gene and per-gene
  summary statistics.

Hail tables are modelled as Lean lists of rows; per-locus column aggregation
is a list of entries (one per sample group at that locus); numeric depth
statistics are rationals; a missing (null) value is `Option.none`.
-/

namespace ExomesGenomesCoverage

/-- A genomic locus: (contig, position). -/
abbrev Locus := String × ℕ

/-- One column (sample-group) entry of the grouped coverage MatrixTable at a
given locus: inferred sex, group size `n`, mean and median depth, and the
`over_*` entry columns accessed by name (`mt[name]`). -/
structure CovEntry where
  sex : String
  n : ℚ
  mean : ℚ
  median : ℚ
  overCol : String → ℚ

/-- `hl.agg.sum` of a numeric expression over the entries at a locus. -/
def aggSum (f : CovEntry → ℚ) (samples : List CovEntry) : ℚ :=
  (samples.map f).sum

/-- Insert a rational into a sorted list (ascending). -/
def insertSorted (x : ℚ) : List ℚ → List ℚ
  | [] => [x]
  | y :: ys => if x ≤ y then x :: y :: ys else y :: insertSorted x ys

/-- Sort a list of rationals ascending. -/
def sortQ (l : List ℚ) : List ℚ := l.foldr insertSorted []

/-- `hl.median` of a collected array: the middle element of the sorted
values (lower middle for even length), 0 on an empty array. -/
def hlMedian (l : List ℚ) : ℚ := (sortQ l).getD ((l.length - 1) / 2) 0

/-- The threshold list of the source: `[1] + list(range(5,31,5)) + [50, 100]`. -/
def thresholdIs : List ℕ := [1] ++ ((List.range 6).map (fun k => 5 + 5 * k)) ++ [50, 100]

/-- Python `f'{float(i)}'` for a natural `i`: decimal digits followed by `.0`. -/
def pyFloatStr (i : ℕ) : String := toString i ++ ".0"

/-- Python `f'{i/2}'` for a natural `i`: the true division `i/2` printed as a
float (`0.5`, `2.5`, `5.0`, ...). -/
def pyHalfStr (i : ℕ) : String :=
  if i % 2 = 0 then toString (i / 2) ++ ".0" else toString (i / 2) ++ ".5"

/-- The entry-column name `f'over_{float(i)}'` (full threshold). -/
def fullColName (i : ℕ) : String := "over_" ++ pyFloatStr i

/-- The struct-field / entry-column name `f'over_{i/2}'` (half threshold). -/
def halfColName (i : ℕ) : String := "over_" ++ pyHalfStr i

/-- The haploid-adjusted per-locus coverage struct: mean, median, and the
generated `over_{i/2}` fields in generation order (a null field is `none`). -/
structure HaploidCovStruct where
  mean : ℚ
  median : ℚ
  overFields : List (String × Option ℚ)

/-- The `over_{i/2}` field value in the autosome/PAR branch:
`hl.agg.sum(mt[f'over_{float(i)}']) / hl.agg.sum(mt.n)`. -/
def fracOverAuto (samples : List CovEntry) (i : ℕ) : Option ℚ :=
  some (aggSum (fun e => e.overCol (fullColName i)) samples / aggSum (fun e => e.n) samples)

/-- The `over_{i/2}` field value in the non-PAR sex-chromosome branch:
`hl.null` when the half-threshold column is absent from the entry schema,
otherwise the sum over entries of (male: the `over_{i/2}` column;
other: the `over_{float(i)}` column), divided by the total `n`. -/
def fracOverNonPar (schema : List String) (samples : List CovEntry) (i : ℕ) : Option ℚ :=
  if halfColName i ∈ schema then
    some (aggSum
      (fun e => if e.sex = "male" then e.overCol (halfColName i) else e.overCol (fullColName i))
      samples / aggSum (fun e => e.n) samples)
  else none

/-- `get_haploid_coverage_struct` (lines 29–56 of the source): branch on
`mt.locus.in_autosome_or_par()`; `schema` is the entry schema of the source
MatrixTable (`mt.entry`), `samples` the entries at the locus. -/
def get_haploid_coverage_struct (schema : List String) (inAutosomeOrPar : Bool)
    (samples : List CovEntry) : HaploidCovStruct :=
  if inAutosomeOrPar then
    { mean := 1/2 * aggSum (fun e => e.mean * e.n) samples / aggSum (fun e => e.n) samples
      median := 1/2 * hlMedian (samples.map (fun e => e.median))
      overFields := thresholdIs.map (fun i => (halfColName i, fracOverAuto samples i)) }
  else
    { mean := aggSum (fun e => if e.sex = "male" then e.mean * e.n else 1/2 * e.mean * e.n)
          samples / aggSum (fun e => e.n) samples
      median := hlMedian (samples.map (fun e => if e.sex = "male" then e.median else 1/2 * e.median))
      overFields := thresholdIs.map (fun i => (halfColName i, fracOverNonPar schema samples i)) }

/-- The entry schema of the source coverage MatrixTables: one `over_{t}.0`
column per threshold t ∈ {1, 5, 10, 15, 20, 25, 30, 50, 100}. -/
def sourceEntrySchema : List String :=
  ["over_1.0", "over_5.0", "over_10.0", "over_15.0", "over_20.0",
   "over_25.0", "over_30.0", "over_50.0", "over_100.0"]

/-- The reported thresholds carried by the struct's fraction-over fields:
each generated field `over_{i/2}` reports threshold i/2. -/
def structThresholds : List ℚ := thresholdIs.map (fun i => (i : ℚ) / 2)

/-- The generated fraction-over field names, in generation order. -/
def fracOverFieldNames : List String := thresholdIs.map halfColName

/-- The generator list written out: thresholds 1, 5, ..., 30, 50, 100. -/
theorem thresholdIs_eq : thresholdIs = [1, 5, 10, 15, 20, 25, 30, 50, 100] := by decide

/-- The generated field names written out. -/
theorem fracOverFieldNames_eq : fracOverFieldNames =
    ["over_0.5", "over_2.5", "over_5.0", "over_7.5", "over_10.0",
     "over_12.5", "over_15.0", "over_25.0", "over_50.0"] := by decide

/- ## Gene model builder (`import_cds_from_gtf`) -/

/-- One record of the imported GTF, with the fields the pipeline touches.
`stop` models `interval.end.position` (`end` is a Lean keyword). -/
structure GtfRecord where
  contig : String
  start : ℕ
  stop : ℕ
  feature : String
  transcript_type : String
  tag : String
  gene_id : String
  gene_name : String

/-- `hl.range(a, b)`: the half-open range `[a, b)`, empty when `b ≤ a`. -/
def hlRange (a b : ℕ) : List ℕ := (List.range (b - a)).map (fun k => a + k)

/-- The contigs of the GRCh37 reference build; `skip_invalid_contigs=True`
silently drops records on any other contig at import. -/
def grch37Contigs : List String :=
  ((List.range 22).map (fun k => toString (k + 1))) ++ ["X", "Y", "MT"]

/-- The CDS filter of line 15: feature `CDS`, transcript type
`protein_coding`, tag `basic`. -/
def cdsFilter (r : GtfRecord) : Bool :=
  (r.feature == "CDS") && (r.transcript_type == "protein_coding") && (r.tag == "basic")

/-- One exploded row of the gene-model table: (locus, gene_id) key plus
gene_name. -/
structure GeneBaseRow where
  locus : Locus
  gene_id : String
  gene_name : String
deriving DecidableEq, Inhabited

/-- The key used by `key_by('locus', 'gene_id')`. -/
def rowKey (q : GeneBaseRow) : Locus × String := (q.locus, q.gene_id)

/-- Lines 16–17: annotate the record with
`hl.range(interval.start.position, interval.end.position)` mapped to loci on
the record's contig, select (gene_id, locus, gene_name), and explode. -/
def explodeRecord (r : GtfRecord) : List GeneBaseRow :=
  (hlRange r.start r.stop).map (fun p => ⟨(r.contig, p), r.gene_id, r.gene_name⟩)

/-- The interval length, in the half-open sense matching the explode:
`interval.end.position - interval.start.position`. -/
def intervalLength (r : GtfRecord) : ℕ := r.stop - r.start

/-- `Table.distinct()` on the (locus, gene_id) key: keep the first row seen
for each key (`seen` accumulates the keys already kept). -/
def distinctAux (seen : List (Locus × String)) : List GeneBaseRow → List GeneBaseRow
  | [] => []
  | q :: qs =>
    if rowKey q ∈ seen then distinctAux seen qs
    else q :: distinctAux (rowKey q :: seen) qs

/-- Line 18: `key_by('locus', 'gene_id').distinct()`. -/
def distinctByKey (l : List GeneBaseRow) : List GeneBaseRow := distinctAux [] l

/-- `import_cds_from_gtf`: import (dropping invalid contigs), filter to basic
protein-coding CDS records, explode each interval to one row per base, key by
(locus, gene_id) and deduplicate. -/
def import_cds_from_gtf (raw : List GtfRecord) : List GeneBaseRow :=
  distinctByKey
    (((raw.filter (fun r => grch37Contigs.contains r.contig)).filter cdsFilter).flatMap
      explodeRecord)

/- ## Per-base coverage join (`compute_per_base_cds_coverage`) -/

/-- Association-list lookup by key, first match wins (models indexing a keyed
Hail table with `tbl[key]`). -/
def alookup {α β : Type} [DecidableEq α] : List (α × β) → α → Option β
  | [], _ => none
  | kv :: t, a => if kv.1 = a then some kv.2 else alookup t a

/-- The per-platform struct columns of one `get_cov_ht` row (lines 61–69):
one `{data_type}_{platform}` field per observed platform, computed over the
entries of that platform, plus a `{data_type}_all` field over all entries.
`platformOf` gives each entry's `qc_platform`. -/
def get_cov_row (data_type : String) (platforms : List String)
    (platformOf : CovEntry → String) (schema : List String) (inAutosomeOrPar : Bool)
    (entries : List CovEntry) : List (String × HaploidCovStruct) :=
  (platforms.map (fun p =>
    (data_type ++ "_" ++ p,
     get_haploid_coverage_struct schema inAutosomeOrPar
       (entries.filter (fun e => platformOf e == p)))))
  ++ [(data_type ++ "_all", get_haploid_coverage_struct schema inAutosomeOrPar entries)]

/-- A row of the joined per-base table: the gene-model row annotated with the
splatted coverage struct columns and the mappability score; a missing join
match leaves each field `none`. -/
structure PerBaseRow where
  locus : Locus
  gene_id : String
  gene_name : String
  covCols : List (String × Option HaploidCovStruct)
  mappability : Option ℚ
deriving Inhabited

/-- Splat (`**`) of an indexed row: on a hit every field of the matched row,
on a miss each schema field set to null. -/
def splatFields (colNames : List String) (hit : Option (List (String × HaploidCovStruct))) :
    List (String × Option HaploidCovStruct) :=
  match hit with
  | some fs => fs.map (fun kv => (kv.1, some kv.2))
  | none => colNames.map (fun c => (c, none))

/-- Lines 76–80: annotate one gene-model row with
`**exomes_cov[locus], **genomes_cov[locus], mappability=ucsc_mappability[locus].duke_35_map`. -/
def annotateRow (exoColNames genoColNames : List String)
    (exoCov genoCov : List (Locus × List (String × HaploidCovStruct)))
    (mapTbl : List (Locus × ℚ)) (q : GeneBaseRow) : PerBaseRow :=
  { locus := q.locus
    gene_id := q.gene_id
    gene_name := q.gene_name
    covCols := splatFields exoColNames (alookup exoCov q.locus)
      ++ splatFields genoColNames (alookup genoCov q.locus)
    mappability := alookup mapTbl q.locus }

/-- `compute_per_base_cds_coverage`, join part: every gene-model row is
annotated; no row is added or dropped. -/
def compute_per_base_cds_coverage (gtf : List GeneBaseRow)
    (exoColNames genoColNames : List String)
    (exoCov genoCov : List (Locus × List (String × HaploidCovStruct)))
    (mapTbl : List (Locus × ℚ)) : List PerBaseRow :=
  gtf.map (annotateRow exoColNames genoColNames exoCov genoCov mapTbl)

/- ## Gene summary exporter (`export_gene_coverage`) -/

/-- Line 88. -/
def min_good_coverage_dp : String := "over_10.0"

/-- Line 89. -/
def min_good_coverage_prop : ℚ := 8/10

/-- Line 92: `hl.filter_intervals(cov, [hl.parse_locus_interval('Y')], keep=False)`
drops every row whose locus is on the Y contig. -/
def filterY (t : List PerBaseRow) : List PerBaseRow :=
  t.filter (fun r => r.locus.1 != "Y")

/-- The group keys of `group_by(cov.gene_id)`: the distinct gene ids. -/
def geneIds (t : List PerBaseRow) : List String := (t.map (fun r => r.gene_id)).dedup

/-- The rows of one gene's group. -/
def groupRows (t : List PerBaseRow) (g : String) : List PerBaseRow :=
  t.filter (fun r => r.gene_id == g)

/-- `cov[x][min_good_coverage_dp]`: the fraction-over-10 value of struct
column `x`, missing when the join missed or the field is null. -/
def wellCovVal (x : String) (r : PerBaseRow) : Option ℚ :=
  ((alookup r.covCols x).join).bind (fun s => (alookup s.overFields min_good_coverage_dp).join)

/-- The predicate `cov[x][min_good_coverage_dp] >= min_good_coverage_prop`;
a missing value does not satisfy it. -/
def wellCovered (x : String) (r : PerBaseRow) : Bool :=
  match wellCovVal x r with
  | some v => decide (min_good_coverage_prop ≤ v)
  | none => false

/-- `hl.agg.fraction`: the fraction of the group's rows satisfying the
predicate. -/
def aggFraction (p : PerBaseRow → Bool) (rows : List PerBaseRow) : ℚ :=
  ((rows.countP p : ℕ) : ℚ) / ((rows.length : ℕ) : ℚ)

/-- `hl.agg.mean` of a possibly-missing value: missing values are skipped. -/
def aggMeanOpt (f : PerBaseRow → Option ℚ) (rows : List PerBaseRow) : ℚ :=
  ((rows.filterMap f).sum) / (((rows.filterMap f).length : ℕ) : ℚ)

/-- `hl.agg.min` over the group's positions (0 on an empty group). -/
def aggMinN : List ℕ → ℕ
  | [] => 0
  | h :: t => t.foldl Nat.min h

/-- `hl.agg.max` over the group's positions (0 on an empty group). -/
def aggMaxN : List ℕ → ℕ
  | [] => 0
  | h :: t => t.foldl Nat.max h

/-- One exported row, after the `explode('cov_stats')` and `select` of lines
112–120: the per-gene fields plus one platform's statistics. -/
structure GeneSummaryRow where
  gene_id : String
  gene_name : String
  intervalStart : Locus
  intervalStop : Locus
  mean_mappability : ℚ
  median_mappability : ℚ
  data_type : String
  platform : String
  frac_well_covered_bases : ℚ
  mean_well_covered_samples : ℚ

/-- Python `x.startswith(pre)`: prefix test on the underlying characters. -/
def strStartsWith (s pre : String) : Bool := pre.data.isPrefixOf s.data

/-- `export_gene_coverage` (lines 91–120): drop Y rows, group by gene id,
aggregate each group, one output row per (gene, struct column). `covColNames`
is `list(cov.row_value)`; `hl.agg.take(_, 1)[0]` is the group's first value;
`hl.agg.approx_quantiles(_, 0.5)` is modelled as the exact median of the
present values. -/
def export_gene_coverage (covColNames : List String) (t : List PerBaseRow) :
    List GeneSummaryRow :=
  let cov := filterY t
  (geneIds cov).flatMap (fun g =>
    let rows := groupRows cov g
    let contig0 := (rows.headD default).locus.1
    (covColNames.filter (fun x => strStartsWith x "exomes" || strStartsWith x "genomes")).map
      (fun x =>
        { gene_id := g
          gene_name := (rows.headD default).gene_name
          intervalStart := (contig0, aggMinN (rows.map (fun r => r.locus.2)))
          intervalStop := (contig0, aggMaxN (rows.map (fun r => r.locus.2)))
          mean_mappability := aggMeanOpt (fun r => r.mappability) rows
          median_mappability := hlMedian (rows.filterMap (fun r => r.mappability))
          data_type := ((x.splitOn "_").headD "")
          platform := String.intercalate "_" ((x.splitOn "_").tail)
          frac_well_covered_bases := aggFraction (wellCovered x) rows
          mean_well_covered_samples := aggMeanOpt (wellCovVal x) rows }))

/- ## Spec-side definitions and concrete inputs used to settle the claims -/

/-- The non-PAR fraction-over rule as the spec sentence words it: male
samples contribute the value at the matching full threshold, other samples
the value at the half threshold. Written only to be compared against
`fracOverNonPar`, which embeds the source. -/
def fracOverNonParClaimed (schema : List String) (samples : List CovEntry) (i : ℕ) :
    Option ℚ :=
  if halfColName i ∈ schema then
    some (aggSum
      (fun e => if e.sex = "male" then e.overCol (fullColName i) else e.overCol (halfColName i))
      samples / aggSum (fun e => e.n) samples)
  else none

/-- The reported threshold set as the spec lists it:
`T = {0.5, 1, 2.5, 5, 7.5, ..., 15, 25, 50}`. -/
def claimedThresholds : List ℚ := [1/2, 1, 5/2, 5, 15/2, 10, 25/2, 15, 25, 50]

/-- A concrete male sample group whose `over_5.0` and `over_10.0` columns
differ. -/
def ce1 : CovEntry :=
  { sex := "male", n := 1, mean := 0, median := 0
    overCol := fun s => if s = "over_5.0" then 1 else 0 }

/-- A concrete CDS GTF record on a valid contig. -/
def gtf1 : GtfRecord :=
  { contig := "1", start := 100, stop := 103, feature := "CDS"
    transcript_type := "protein_coding", tag := "basic"
    gene_id := "g1", gene_name := "G1" }

/-- A concrete CDS record of a second gene, overlapping `gtf1`. -/
def gtf2 : GtfRecord :=
  { contig := "1", start := 101, stop := 104, feature := "CDS"
    transcript_type := "protein_coding", tag := "basic"
    gene_id := "g2", gene_name := "G2" }

/-- A concrete CDS record of the same gene as `gtf1`, overlapping it. -/
def gtf3 : GtfRecord :=
  { contig := "1", start := 101, stop := 104, feature := "CDS"
    transcript_type := "protein_coding", tag := "basic"
    gene_id := "g1", gene_name := "G1" }

/-- A concrete gene-model base row. -/
def gb1 : GeneBaseRow := ⟨("1", 7), "g1", "G1"⟩

/-- A concrete haploid-adjusted struct with a present `over_10.0` field. -/
def covS1 : HaploidCovStruct := { mean := 1, median := 1, overFields := [("over_10.0", some 1)] }

/-- A concrete joined per-base row on contig 1. -/
def pbRow1 : PerBaseRow :=
  { locus := ("1", 7), gene_id := "g1", gene_name := "G1"
    covCols := [("exomes_all", some covS1)], mappability := some 1 }

/-- A concrete one-row joined table. -/
def pbTbl1 : List PerBaseRow := [pbRow1]

/-- The gene-summary row that `export_gene_coverage ["exomes_all"] pbTbl1`
produces, written field by field as the exporter builds it. -/
def gsRow1 : GeneSummaryRow :=
  { gene_id := "g1"
    gene_name := ((groupRows (filterY pbTbl1) "g1").headD default).gene_name
    intervalStart := (((groupRows (filterY pbTbl1) "g1").headD default).locus.1,
      aggMinN ((groupRows (filterY pbTbl1) "g1").map (fun r => r.locus.2)))
    intervalStop := (((groupRows (filterY pbTbl1) "g1").headD default).locus.1,
      aggMaxN ((groupRows (filterY pbTbl1) "g1").map (fun r => r.locus.2)))
    mean_mappability := aggMeanOpt (fun r => r.mappability) (groupRows (filterY pbTbl1) "g1")
    median_mappability :=
      hlMedian ((groupRows (filterY pbTbl1) "g1").filterMap (fun r => r.mappability))
    data_type := (("exomes_all".splitOn "_").headD "")
    platform := String.intercalate "_" (("exomes_all".splitOn "_").tail)
    frac_well_covered_bases :=
      aggFraction (wellCovered "exomes_all") (groupRows (filterY pbTbl1) "g1")
    mean_well_covered_samples :=
      aggMeanOpt (wellCovVal "exomes_all") (groupRows (filterY pbTbl1) "g1") }

/- ## Helper lemmas -/

/-- Looking up a generated key in a generated association list finds the
generator's value, provided the generated keys are distinct. -/
theorem alookup_map_key {α β γ : Type} [DecidableEq α] [DecidableEq β]
    (g : α → β) (f : α → γ) (l : List α) (i : α) (hi : i ∈ l)
    (hnd : (l.map g).Nodup) :
    alookup (l.map (fun a => (g a, f a))) (g i) = some (f i) := by
  induction l with
  | nil => cases hi
  | cons a t ih =>
    simp only [List.map_cons, List.nodup_cons] at hnd
    rcases List.mem_cons.mp hi with h | h
    · subst h
      simp [alookup]
    · have hne : g a ≠ g i := by
        intro he
        exact hnd.1 (he ▸ List.mem_map_of_mem g h)
      simp only [List.map_cons, alookup, hne, if_false]
      exact ih h hnd.2

/-- Membership in `hl.range(a, b)` is exactly `a ≤ p < b`. -/
theorem mem_hlRange {a b p : ℕ} : p ∈ hlRange a b ↔ a ≤ p ∧ p < b := by
  simp only [hlRange, List.mem_map, List.mem_range]
  constructor
  · rintro ⟨k, hk, rfl⟩
    omega
  · rintro ⟨h1, h2⟩
    exact ⟨p - a, by omega, by omega⟩

/- ## C2 — haploid-adjusted mean and median -/

/-- C2: on an autosomal/PAR locus the adjusted mean is
`0.5 × Σ(mean_i × n_i) / Σ(n_i)` and the adjusted median is `0.5` times the
median of the per-sample medians; on a non-PAR sex-chromosome locus the mean
is `Σ(male: mean_i × n_i; other: 0.5 × mean_i × n_i) / Σ(n_i)` and the median
is the median over samples of `(male: median_i; other: 0.5 × median_i)`. -/
theorem c2_haploid_mean_median (schema : List String) (samples : List CovEntry) :
    ((get_haploid_coverage_struct schema true samples).mean
        = 1/2 * (samples.map (fun e => e.mean * e.n)).sum / (samples.map (fun e => e.n)).sum
      ∧ (get_haploid_coverage_struct schema true samples).median
        = 1/2 * hlMedian (samples.map (fun e => e.median)))
    ∧ ((get_haploid_coverage_struct schema false samples).mean
        = (samples.map (fun e =>
            if e.sex = "male" then e.mean * e.n else 1/2 * e.mean * e.n)).sum
          / (samples.map (fun e => e.n)).sum
      ∧ (get_haploid_coverage_struct schema false samples).median
        = hlMedian (samples.map (fun e =>
            if e.sex = "male" then e.median else 1/2 * e.median))) :=
  ⟨⟨rfl, rfl⟩, rfl, rfl⟩

/- ## C1 — non-PAR fraction-over: which column each sex reads -/

/-- C1 is false as stated: at a concrete non-PAR locus with one male sample
group whose `over_5.0` and `over_10.0` columns differ, the struct's
`over_5.0` field is the source's value (male reads the half-threshold column
`over_5.0`), which differs from the claim's rule (male reads the full
threshold column `over_10.0`). -/
theorem c1_counterexample :
    alookup (get_haploid_coverage_struct sourceEntrySchema false [ce1]).overFields "over_5.0"
      = some (fracOverNonPar sourceEntrySchema [ce1] 10)
    ∧ fracOverNonPar sourceEntrySchema [ce1] 10
      ≠ fracOverNonParClaimed sourceEntrySchema [ce1] 10 := by
  refine ⟨rfl, ?_⟩
  intro h
  rw [fracOverNonPar, fracOverNonParClaimed,
    if_pos (show halfColName 10 ∈ sourceEntrySchema by decide),
    if_pos (show halfColName 10 ∈ sourceEntrySchema by decide)] at h
  simp only [show halfColName 10 = "over_5.0" from by decide,
    show fullColName 10 = "over_10.0" from by decide] at h
  simp only [aggSum, ce1, List.map_cons, List.map_nil, List.sum_cons, List.sum_nil,
    Option.some.injEq] at h
  norm_num at h
  rw [if_neg (show ¬("over_10.0" : String) = "over_5.0" from by decide)] at h
  exact one_ne_zero h

/-- C1 amended: for every non-PAR sex-chromosome locus and every threshold
`i` whose half-threshold column exists in the source schema, the adjusted
`over_{i/2}` field is the sum over sample groups of (male: the value at the
half threshold `over_{i/2}`; other: the value at the full threshold
`over_{i}`), divided by `Σ(n_i)`. -/
theorem c1_fracover_nonpar (schema : List String) (samples : List CovEntry) (i : ℕ)
    (hi : i ∈ thresholdIs) (hmem : halfColName i ∈ schema) :
    alookup (get_haploid_coverage_struct schema false samples).overFields (halfColName i)
      = some (some (aggSum
          (fun e => if e.sex = "male" then e.overCol (halfColName i)
            else e.overCol (fullColName i)) samples
          / aggSum (fun e => e.n) samples)) := by
  have h := alookup_map_key halfColName (fracOverNonPar schema samples) thresholdIs i hi
    (by decide)
  show alookup (thresholdIs.map fun j => (halfColName j, fracOverNonPar schema samples j))
      (halfColName i) = _
  rw [h, fracOverNonPar, if_pos hmem]

/-- Witness for C1 amended at threshold 10 and the source schema. -/
theorem c1_fracover_nonpar_witness :
    10 ∈ thresholdIs ∧ halfColName 10 ∈ sourceEntrySchema
    ∧ alookup (get_haploid_coverage_struct sourceEntrySchema false [ce1]).overFields
        (halfColName 10)
      = some (some (aggSum
          (fun e => if e.sex = "male" then e.overCol (halfColName 10)
            else e.overCol (fullColName 10)) [ce1]
          / aggSum (fun e => e.n) [ce1])) :=
  ⟨by decide, by decide, c1_fracover_nonpar sourceEntrySchema [ce1] 10 (by decide) (by decide)⟩

/- ## C4 — missing half-threshold column yields null -/

/-- C4: on a non-PAR sex-chromosome locus, a reported threshold whose
half-threshold column is absent from the source entry schema gets an
explicitly null struct field (present in the struct, value missing). -/
theorem c4_missing_half_col_null (schema : List String) (samples : List CovEntry) (i : ℕ)
    (hi : i ∈ thresholdIs) (hmem : halfColName i ∉ schema) :
    alookup (get_haploid_coverage_struct schema false samples).overFields (halfColName i)
      = some none := by
  have h := alookup_map_key halfColName (fracOverNonPar schema samples) thresholdIs i hi
    (by decide)
  show alookup (thresholdIs.map fun j => (halfColName j, fracOverNonPar schema samples j))
      (halfColName i) = _
  rw [h, fracOverNonPar, if_neg hmem]

/-- Witness for C4 at threshold 1 (`over_0.5` is absent from the source
schema). -/
theorem c4_missing_half_col_null_witness :
    1 ∈ thresholdIs ∧ halfColName 1 ∉ sourceEntrySchema
    ∧ alookup (get_haploid_coverage_struct sourceEntrySchema false [ce1]).overFields
        (halfColName 1) = some none :=
  ⟨by decide, by decide,
    c4_missing_half_col_null sourceEntrySchema [ce1] 1 (by decide) (by decide)⟩

/- ## C5 — the reported threshold set -/

/-- C5 is false as stated: the claim's set lists threshold 1, but 1 is not
among the thresholds the struct reports (there is no `over_1.0` fraction-over
field). -/
theorem c5_counterexample :
    (1 : ℚ) ∈ claimedThresholds ∧ (1 : ℚ) ∉ structThresholds
    ∧ "over_1.0" ∉ (get_haploid_coverage_struct sourceEntrySchema false []).overFields.map
        Prod.fst := by
  refine ⟨by norm_num [claimedThresholds], ?_, by decide⟩
  norm_num [structThresholds, thresholdIs_eq]

/-- C5 amended: in both branches the struct carries exactly one fraction-over
field per reported threshold, the thresholds being the halves of the source
set {1, 5, 10, ..., 30, 50, 100}, that is
T = {0.5, 2.5, 5, 7.5, 10, 12.5, 15, 25, 50}, and no others. -/
theorem c5_threshold_fields (schema : List String) (b : Bool) (samples : List CovEntry) :
    (get_haploid_coverage_struct schema b samples).overFields.map Prod.fst
      = fracOverFieldNames
    ∧ fracOverFieldNames
      = ["over_0.5", "over_2.5", "over_5.0", "over_7.5", "over_10.0",
         "over_12.5", "over_15.0", "over_25.0", "over_50.0"]
    ∧ fracOverFieldNames.Nodup
    ∧ structThresholds = [1/2, 5/2, 5, 15/2, 10, 25/2, 15, 25, 50] := by
  refine ⟨?_, by decide, by decide, by norm_num [structThresholds, thresholdIs_eq]⟩
  cases b
  · show (thresholdIs.map fun j => (halfColName j, fracOverNonPar schema samples j)).map
        Prod.fst = fracOverFieldNames
    rw [List.map_map]
    rfl
  · show (thresholdIs.map fun j => (halfColName j, fracOverAuto samples j)).map
        Prod.fst = fracOverFieldNames
    rw [List.map_map]
    rfl

/- ## C10 — which struct fields are null under the source schema -/

/-- C10: under the source entry schema, on a non-PAR sex-chromosome locus
exactly the fields `over_0.5`, `over_2.5`, `over_7.5` and `over_12.5` are
null (their half-threshold columns are absent), while `over_5.0`,
`over_10.0`, `over_15.0`, `over_25.0` and `over_50.0` are computed
non-missing; in particular the exporter's `min_good_coverage_dp` field
`over_10.0` is computed. -/
theorem c10_schema_nulls (samples : List CovEntry) :
    alookup (get_haploid_coverage_struct sourceEntrySchema false samples).overFields
        "over_0.5" = some none
    ∧ alookup (get_haploid_coverage_struct sourceEntrySchema false samples).overFields
        "over_2.5" = some none
    ∧ alookup (get_haploid_coverage_struct sourceEntrySchema false samples).overFields
        "over_7.5" = some none
    ∧ alookup (get_haploid_coverage_struct sourceEntrySchema false samples).overFields
        "over_12.5" = some none
    ∧ alookup (get_haploid_coverage_struct sourceEntrySchema false samples).overFields
        "over_5.0"
      = some (some (aggSum (fun e => if e.sex = "male" then e.overCol "over_5.0"
          else e.overCol "over_10.0") samples / aggSum (fun e => e.n) samples))
    ∧ alookup (get_haploid_coverage_struct sourceEntrySchema false samples).overFields
        "over_15.0"
      = some (some (aggSum (fun e => if e.sex = "male" then e.overCol "over_15.0"
          else e.overCol "over_30.0") samples / aggSum (fun e => e.n) samples))
    ∧ alookup (get_haploid_coverage_struct sourceEntrySchema false samples).overFields
        "over_25.0"
      = some (some (aggSum (fun e => if e.sex = "male" then e.overCol "over_25.0"
          else e.overCol "over_50.0") samples / aggSum (fun e => e.n) samples))
    ∧ alookup (get_haploid_coverage_struct sourceEntrySchema false samples).overFields
        "over_50.0"
      = some (some (aggSum (fun e => if e.sex = "male" then e.overCol "over_50.0"
          else e.overCol "over_100.0") samples / aggSum (fun e => e.n) samples))
    ∧ min_good_coverage_dp = "over_10.0"
    ∧ alookup (get_haploid_coverage_struct sourceEntrySchema false samples).overFields
        min_good_coverage_dp
      = some (some (aggSum (fun e => if e.sex = "male" then e.overCol "over_10.0"
          else e.overCol "over_20.0") samples / aggSum (fun e => e.n) samples)) :=
  ⟨rfl, rfl, rfl, rfl, rfl, rfl, rfl, rfl, rfl, rfl⟩

/- ## C3 — exploding a CDS interval -/

/-- C3: a CDS record kept by the gene-model filter explodes to exactly
`intervalLength` rows (the interval's half-open length), each carrying the
record's gene_id and gene_name. Records on unsupported contigs were already
dropped at import, so no kept record loses rows. -/
theorem c3_explode_length (r : GtfRecord)
    (_hc : grch37Contigs.contains r.contig = true) (_hf : cdsFilter r = true) :
    (explodeRecord r).length = intervalLength r
    ∧ ∀ q ∈ explodeRecord r, q.gene_id = r.gene_id ∧ q.gene_name = r.gene_name := by
  constructor
  · simp [explodeRecord, hlRange, intervalLength]
  · intro q hq
    simp only [explodeRecord, List.mem_map] at hq
    obtain ⟨p, _, rfl⟩ := hq
    exact ⟨rfl, rfl⟩

/-- Witness for C3 on a concrete 3-base CDS record. -/
theorem c3_explode_length_witness :
    grch37Contigs.contains gtf1.contig = true ∧ cdsFilter gtf1 = true
    ∧ ((explodeRecord gtf1).length = intervalLength gtf1
      ∧ ∀ q ∈ explodeRecord gtf1, q.gene_id = gtf1.gene_id ∧ q.gene_name = gtf1.gene_name) :=
  ⟨by decide, by decide, c3_explode_length gtf1 (by decide) (by decide)⟩

/- ## C6 — Y-contig exclusion in the exporter -/

/-- C6: the exported gene summary of any joined table equals the summary of
the same table with its Y rows removed (Y rows never contribute, however many
there are), and every row surviving the exporter's filter is off the Y
contig. -/
theorem c6_y_excluded (covColNames : List String) (t : List PerBaseRow)
    (r : PerBaseRow) (hr : r ∈ filterY t) :
    export_gene_coverage covColNames t = export_gene_coverage covColNames (filterY t)
    ∧ r.locus.1 ≠ "Y" := by
  constructor
  · have h : filterY (filterY t) = filterY t := by
      simp [filterY, List.filter_filter]
    simp only [export_gene_coverage, h]
  · have h := (List.mem_filter.mp hr).2
    simp only [bne_iff_ne] at h
    exact h

/-- Witness for C6 on a concrete one-row table off the Y contig. -/
theorem c6_y_excluded_witness :
    (export_gene_coverage ["exomes_all"] pbTbl1
      = export_gene_coverage ["exomes_all"] (filterY pbTbl1))
    ∧ pbRow1.locus.1 ≠ "Y" :=
  c6_y_excluded ["exomes_all"] pbTbl1 pbRow1 (show pbRow1 ∈ [pbRow1] from List.mem_cons_self _ _)

/- ## C7 — left-outer join semantics -/

/-- C7: the per-base join is left-outer on the gene model: the joined table
has exactly the gene-model rows (locus, gene_id, gene_name preserved), and a
row whose locus misses the exomes table, the genomes table and the
mappability table has every annotated coverage field and the mappability
field null. -/
theorem c7_left_join (gtf : List GeneBaseRow) (ecn gcn : List String)
    (ecov gcov : List (Locus × List (String × HaploidCovStruct))) (mtbl : List (Locus × ℚ))
    (r : PerBaseRow) (hr : r ∈ compute_per_base_cds_coverage gtf ecn gcn ecov gcov mtbl)
    (he : alookup ecov r.locus = none) (hg : alookup gcov r.locus = none)
    (hm : alookup mtbl r.locus = none) :
    (compute_per_base_cds_coverage gtf ecn gcn ecov gcov mtbl).map
        (fun s => (s.locus, s.gene_id, s.gene_name))
      = gtf.map (fun q => (q.locus, q.gene_id, q.gene_name))
    ∧ (∀ kv ∈ r.covCols, kv.2 = none) ∧ r.mappability = none := by
  obtain ⟨q, _, rfl⟩ := List.mem_map.mp hr
  have he' : alookup ecov q.locus = none := he
  have hg' : alookup gcov q.locus = none := hg
  refine ⟨?_, ?_, hm⟩
  · rw [compute_per_base_cds_coverage, List.map_map]
    rfl
  · intro kv hkv
    have hkv' : kv ∈ splatFields ecn none ++ splatFields gcn none := by
      have : (annotateRow ecn gcn ecov gcov mtbl q).covCols
          = splatFields ecn none ++ splatFields gcn none := by
        rw [annotateRow]
        rw [he', hg']
      exact this ▸ hkv
    simp only [splatFields, List.mem_append, List.mem_map] at hkv'
    rcases hkv' with ⟨c, _, rfl⟩ | ⟨c, _, rfl⟩ <;> rfl

/-- Witness for C7: a one-row gene model joined against empty coverage and
mappability tables. -/
theorem c7_left_join_witness :
    ((compute_per_base_cds_coverage [gb1] ["exomes_all"] ["genomes_all"] [] [] []).map
        (fun s => (s.locus, s.gene_id, s.gene_name))
      = [gb1].map (fun q => (q.locus, q.gene_id, q.gene_name)))
    ∧ (∀ kv ∈ (annotateRow ["exomes_all"] ["genomes_all"] [] [] [] gb1).covCols, kv.2 = none)
    ∧ (annotateRow ["exomes_all"] ["genomes_all"] [] [] [] gb1).mappability = none :=
  c7_left_join [gb1] ["exomes_all"] ["genomes_all"] [] [] []
    (annotateRow ["exomes_all"] ["genomes_all"] [] [] [] gb1)
    (show _ ∈ [annotateRow ["exomes_all"] ["genomes_all"] [] [] [] gb1] from
      List.mem_cons_self _ _)
    rfl rfl rfl

/- ## C8 — deduplication on the (locus, gene_id) key -/

/-- In the deduplicated table, a key occurs once if some input row carries it
(and its key is not among the already-seen ones), otherwise not at all. -/
theorem countP_distinctAux (k : Locus × String) (l : List GeneBaseRow) :
    ∀ seen : List (Locus × String),
      (distinctAux seen l).countP (fun q => decide (rowKey q = k))
        = if k ∈ seen then 0
          else if l.any (fun q => decide (rowKey q = k)) then 1 else 0 := by
  induction l with
  | nil =>
    intro seen
    simp [distinctAux]
  | cons q qs ih =>
    intro seen
    simp only [distinctAux]
    by_cases hq : rowKey q ∈ seen
    · rw [if_pos hq, ih seen]
      by_cases hk : k ∈ seen
      · simp [hk]
      · have hne : ¬rowKey q = k := fun he => hk (he ▸ hq)
        simp [hk, List.any_cons, hne]
    · rw [if_neg hq, List.countP_cons, ih (rowKey q :: seen)]
      by_cases he : rowKey q = k
      · subst he
        simp [hq, List.any_cons]
      · have he2 : ¬k = rowKey q := fun h => he h.symm
        by_cases hk : k ∈ seen <;>
          simp [hk, he, he2, List.mem_cons, List.any_cons]

/-- Deduplication only drops rows: every kept row is an input row. -/
theorem mem_of_mem_distinctAux {q : GeneBaseRow} (l : List GeneBaseRow) :
    ∀ seen : List (Locus × String), q ∈ distinctAux seen l → q ∈ l := by
  induction l with
  | nil =>
    intro seen h
    simp [distinctAux] at h
  | cons a t ih =>
    intro seen h
    simp only [distinctAux] at h
    by_cases ha : rowKey a ∈ seen
    · rw [if_pos ha] at h
      exact List.mem_cons_of_mem a (ih seen h)
    · rw [if_neg ha] at h
      rcases List.mem_cons.mp h with h | h
      · exact h ▸ List.mem_cons_self a t
      · exact List.mem_cons_of_mem a (ih _ h)

/-- Counting rows at a locus splits into the two possible keys when every
row's gene id is one of two distinct genes. -/
theorem countP_locus_split (lo : Locus) (g₁ g₂ : String) (hg : g₁ ≠ g₂)
    (l : List GeneBaseRow) :
    (∀ q ∈ l, q.gene_id = g₁ ∨ q.gene_id = g₂) →
      l.countP (fun q => decide (q.locus = lo))
        = l.countP (fun q => decide (rowKey q = (lo, g₁)))
          + l.countP (fun q => decide (rowKey q = (lo, g₂))) := by
  induction l with
  | nil =>
    intro _
    simp
  | cons q qs ih =>
    intro hmem
    have hq := hmem q (List.mem_cons_self q qs)
    have hqs : ∀ r ∈ qs, r.gene_id = g₁ ∨ r.gene_id = g₂ :=
      fun r hr => hmem r (List.mem_cons_of_mem q hr)
    simp only [List.countP_cons, ih hqs]
    have hg2 : ¬g₂ = g₁ := fun h => hg h.symm
    rcases hq with h | h <;> by_cases hl : q.locus = lo <;>
      simp [rowKey, Prod.mk.injEq, h, hl, hg, hg2] <;> omega

/-- Every exploded row carries the record's gene id, gene name and contig. -/
theorem explodeRecord_fields {r : GtfRecord} {q : GeneBaseRow} (h : q ∈ explodeRecord r) :
    q.gene_id = r.gene_id ∧ q.gene_name = r.gene_name ∧ q.locus.1 = r.contig := by
  simp only [explodeRecord, List.mem_map] at h
  obtain ⟨p, _, rfl⟩ := h
  exact ⟨rfl, rfl, rfl⟩

/-- A covered position yields a row with the record's key in the explode. -/
theorem any_key_explode (r : GtfRecord) (p : ℕ) (g : String)
    (hg : g = r.gene_id) (hp : r.start ≤ p ∧ p < r.stop) :
    (explodeRecord r).any (fun q => decide (rowKey q = ((r.contig, p), g))) = true := by
  rw [List.any_eq_true]
  refine ⟨⟨(r.contig, p), r.gene_id, r.gene_name⟩, ?_, by simp [rowKey, hg]⟩
  simp only [explodeRecord, List.mem_map]
  exact ⟨p, mem_hlRange.mpr hp, rfl⟩

/-- C8: in the gene model built from two kept CDS records covering a common
base, the base yields exactly one row per distinct gene id at that locus —
one row when the records share a gene id, two rows (one per gene id) when
they differ. -/
theorem c8_dedup (r₁ r₂ : GtfRecord) (p : ℕ)
    (hc₁ : grch37Contigs.contains r₁.contig = true) (hf₁ : cdsFilter r₁ = true)
    (hc₂ : grch37Contigs.contains r₂.contig = true) (hf₂ : cdsFilter r₂ = true)
    (hcc : r₂.contig = r₁.contig)
    (hp₁ : r₁.start ≤ p ∧ p < r₁.stop) (hp₂ : r₂.start ≤ p ∧ p < r₂.stop) :
    ((import_cds_from_gtf [r₁, r₂]).countP
        (fun q => decide (rowKey q = ((r₁.contig, p), r₁.gene_id))) = 1)
    ∧ (r₁.gene_id ≠ r₂.gene_id →
      ((import_cds_from_gtf [r₁, r₂]).countP
          (fun q => decide (rowKey q = ((r₁.contig, p), r₂.gene_id))) = 1
        ∧ (import_cds_from_gtf [r₁, r₂]).countP
            (fun q => decide (q.locus = (r₁.contig, p))) = 2)) := by
  have himport : import_cds_from_gtf [r₁, r₂]
      = distinctByKey (explodeRecord r₁ ++ explodeRecord r₂) := by
    have hm₁ : r₁.contig ∈ grch37Contigs := List.elem_iff.mp hc₁
    have hm₂ : r₂.contig ∈ grch37Contigs := List.elem_iff.mp hc₂
    simp [import_cds_from_gtf, hc₁, hc₂, hf₁, hf₂, hm₁, hm₂]
  have hcount : ∀ k : Locus × String,
      (distinctByKey (explodeRecord r₁ ++ explodeRecord r₂)).countP
          (fun q => decide (rowKey q = k))
        = if (explodeRecord r₁ ++ explodeRecord r₂).any
              (fun q => decide (rowKey q = k)) then 1 else 0 := by
    intro k
    rw [distinctByKey, countP_distinctAux k _ []]
    simp
  have hany₁ : (explodeRecord r₁).any
      (fun q => decide (rowKey q = ((r₁.contig, p), r₁.gene_id))) = true :=
    any_key_explode r₁ p r₁.gene_id rfl hp₁
  have hany₂ : (explodeRecord r₂).any
      (fun q => decide (rowKey q = ((r₁.contig, p), r₂.gene_id))) = true := by
    have h := any_key_explode r₂ p r₂.gene_id rfl hp₂
    rw [hcc] at h
    exact h
  constructor
  · rw [himport, hcount, List.any_append, hany₁]
    simp
  · intro hne
    constructor
    · rw [himport, hcount, List.any_append, hany₂]
      simp
    · rw [himport]
      have hmem : ∀ q ∈ distinctByKey (explodeRecord r₁ ++ explodeRecord r₂),
          q.gene_id = r₁.gene_id ∨ q.gene_id = r₂.gene_id := by
        intro q hq
        have hq' := mem_of_mem_distinctAux _ [] hq
        rcases List.mem_append.mp hq' with h | h
        · exact Or.inl (explodeRecord_fields h).1
        · exact Or.inr (explodeRecord_fields h).1
      rw [countP_locus_split (r₁.contig, p) r₁.gene_id r₂.gene_id hne _ hmem]
      rw [hcount, hcount, List.any_append, List.any_append, hany₁, hany₂]
      simp

/-- Witness for C8: base 101 covered by `gtf1` and a same-gene record
(`gtf3`) gives one row; covered by `gtf1` and a different-gene record
(`gtf2`) gives one row per gene and two rows at the locus. -/
theorem c8_dedup_witness :
    ((import_cds_from_gtf [gtf1, gtf3]).countP
        (fun q => decide (rowKey q = (("1", 101), "g1"))) = 1)
    ∧ ((import_cds_from_gtf [gtf1, gtf2]).countP
          (fun q => decide (rowKey q = (("1", 101), "g1"))) = 1)
    ∧ ((import_cds_from_gtf [gtf1, gtf2]).countP
          (fun q => decide (rowKey q = (("1", 101), "g2"))) = 1
        ∧ (import_cds_from_gtf [gtf1, gtf2]).countP
            (fun q => decide (q.locus = ("1", 101))) = 2) :=
  ⟨(c8_dedup gtf1 gtf3 101 (by decide) (by decide) (by decide) (by decide) (by decide)
      (by decide) (by decide)).1,
   (c8_dedup gtf1 gtf2 101 (by decide) (by decide) (by decide) (by decide) (by decide)
      (by decide) (by decide)).1,
   (c8_dedup gtf1 gtf2 101 (by decide) (by decide) (by decide) (by decide) (by decide)
      (by decide) (by decide)).2 (by decide)⟩

/- ## C9 — exported fraction bounds and interval ordering -/

/-- Folding with `min` never exceeds the initial value. -/
theorem foldl_min_le (t : List ℕ) : ∀ h : ℕ, t.foldl Nat.min h ≤ h := by
  induction t with
  | nil => intro h; exact Nat.le_refl h
  | cons a t ih =>
    intro h
    exact Nat.le_trans (ih (Nat.min h a)) (Nat.min_le_left h a)

/-- Folding with `max` never drops below the initial value. -/
theorem le_foldl_max (t : List ℕ) : ∀ h : ℕ, h ≤ t.foldl Nat.max h := by
  induction t with
  | nil => intro h; exact Nat.le_refl h
  | cons a t ih =>
    intro h
    exact Nat.le_trans (Nat.le_max_left h a) (ih (Nat.max h a))

/-- On a non-empty list the aggregated minimum is at most the maximum. -/
theorem aggMinN_le_aggMaxN {l : List ℕ} (hl : l ≠ []) : aggMinN l ≤ aggMaxN l := by
  cases l with
  | nil => exact absurd rfl hl
  | cons h t => exact Nat.le_trans (foldl_min_le t h) (le_foldl_max t h)

/-- C9: every exported gene-summary row (each gene group is non-empty by
construction) has its fraction of well-covered bases in [0, 1] and its gene
interval's start position at most its end position. -/
theorem c9_bounds (covColNames : List String) (t : List PerBaseRow) (row : GeneSummaryRow)
    (hrow : row ∈ export_gene_coverage covColNames t) :
    0 ≤ row.frac_well_covered_bases ∧ row.frac_well_covered_bases ≤ 1
    ∧ row.intervalStart.2 ≤ row.intervalStop.2 := by
  simp only [export_gene_coverage, List.mem_flatMap, List.mem_map] at hrow
  obtain ⟨g, hg, x, hx, rfl⟩ := hrow
  have hne : groupRows (filterY t) g ≠ [] := by
    have hg' : g ∈ (filterY t).map (fun r => r.gene_id) := List.mem_dedup.mp hg
    obtain ⟨r, hr, hrg⟩ := List.mem_map.mp hg'
    intro hnil
    have hmem : r ∈ groupRows (filterY t) g := by
      rw [groupRows, List.mem_filter]
      exact ⟨hr, by simp [hrg]⟩
    rw [hnil] at hmem
    cases hmem
  have hlen : 0 < (groupRows (filterY t) g).length := List.length_pos.mpr hne
  refine ⟨?_, ?_, ?_⟩
  · show (0 : ℚ) ≤ aggFraction (wellCovered x) (groupRows (filterY t) g)
    rw [aggFraction]
    exact div_nonneg (Nat.cast_nonneg _) (Nat.cast_nonneg _)
  · show aggFraction (wellCovered x) (groupRows (filterY t) g) ≤ 1
    rw [aggFraction]
    rw [div_le_one (by exact_mod_cast hlen)]
    exact_mod_cast List.countP_le_length _
  · show aggMinN ((groupRows (filterY t) g).map fun r => r.locus.2)
        ≤ aggMaxN ((groupRows (filterY t) g).map fun r => r.locus.2)
    exact aggMinN_le_aggMaxN (fun hmap => hne (List.map_eq_nil_iff.mp hmap))

/-- Witness for C9 on the one-row table `pbTbl1`, whose exported summary is
`[gsRow1]`. -/
theorem c9_bounds_witness :
    0 ≤ gsRow1.frac_well_covered_bases ∧ gsRow1.frac_well_covered_bases ≤ 1
    ∧ gsRow1.intervalStart.2 ≤ gsRow1.intervalStop.2 :=
  c9_bounds ["exomes_all"] pbTbl1 gsRow1
    ((show export_gene_coverage ["exomes_all"] pbTbl1 = [gsRow1] from rfl) ▸
      List.mem_cons_self gsRow1 [])

end ExomesGenomesCoverage
